import Mathlib

/-!
Shallow embedding of the `condition-matcher` crate (condition/group data
model, type-erased scalar comparison dispatcher, evaluators, recursive
tree evaluation, matcher wrappers and the batch/parallel driver), with
theorems settling the frozen claims about it.

Modelling conventions:
* Rust's `&dyn Any` scalar operands become the closed inductive `AnyVal`,
  one constructor per concrete scalar kind tried by the dispatcher
  (`String` and `&str` are merged into one `str` constructor: the
  dispatcher treats them identically via `try_compare_strings`).
* Machine integers are modelled as `Int`/`Nat`: no arithmetic is ever
  performed on them (only comparisons), so overflow cannot occur.
* `f32`/`f64` payloads are modelled as rationals (`Rat`); the `as f64`
  widening casts of `extract_as_f64` are modelled exactly (rounding of
  integers above 2^53 is not modelled — every theorem below only
  evaluates them on small values, where the cast is exact), and
  `f64::EPSILON` is the exact rational 2^-52.
* A `Matchable` record is modelled extensionally as its observable
  behaviour: a field table, a field-path table, an optional length and a
  type name.  Record equality (Rust `PartialEq`, used by
  `ValueEvaluator`) is structural equality of that data.
* The crate is modelled with the `regex` feature disabled, so the
  `Regex` operator takes the `cfg(not(feature = "regex"))` arm and
  always yields `false`.
* Rayon's parallel `evaluate_matrix` is modelled by a scheduling
  parameter: the per-record partitions are evaluated independently and
  their private buffers merged in an arbitrary permutation of the
  enumerated record list.
-/

namespace CondMatcher

/-- Mode for combining multiple conditions (src/condition.rs). -/
inductive ConditionMode where
  | AND
  | OR
  | XOR
deriving DecidableEq

/-- Operators for comparing values in conditions (src/condition.rs). -/
inductive ConditionOperator where
  | Equals
  | NotEquals
  | GreaterThan
  | LessThan
  | GreaterThanOrEqual
  | LessThanOrEqual
  | Contains
  | NotContains
  | StartsWith
  | EndsWith
  | Regex
  | IsNone
  | IsSome
  | IsEmpty
  | IsNotEmpty
deriving DecidableEq

/-- Rust `{:?}` (Debug) rendering of an operator: the variant name. -/
def opDebug : ConditionOperator → String
  | .Equals => "Equals"
  | .NotEquals => "NotEquals"
  | .GreaterThan => "GreaterThan"
  | .LessThan => "LessThan"
  | .GreaterThanOrEqual => "GreaterThanOrEqual"
  | .LessThanOrEqual => "LessThanOrEqual"
  | .Contains => "Contains"
  | .NotContains => "NotContains"
  | .StartsWith => "StartsWith"
  | .EndsWith => "EndsWith"
  | .Regex => "Regex"
  | .IsNone => "IsNone"
  | .IsSome => "IsSome"
  | .IsEmpty => "IsEmpty"
  | .IsNotEmpty => "IsNotEmpty"

/-- Rust `{:?}` (Debug) rendering of a mode: the variant name. -/
def modeDebug : ConditionMode → String
  | .AND => "AND"
  | .OR => "OR"
  | .XOR => "XOR"

/-- Closed set of concrete scalar kinds a type-erased operand can hold,
one constructor per type the dispatcher `compare_any_values` tries to
downcast to (src/evaluators/comparison.rs).  `String` and `&str` are
merged: `try_compare_strings` accepts either on both sides. -/
inductive AnyVal where
  | i8 (v : Int)
  | i16 (v : Int)
  | i32 (v : Int)
  | i64 (v : Int)
  | i128 (v : Int)
  | isize (v : Int)
  | u8 (v : Nat)
  | u16 (v : Nat)
  | u32 (v : Nat)
  | u64 (v : Nat)
  | u128 (v : Nat)
  | usize (v : Nat)
  | f32 (v : Rat)
  | f64 (v : Rat)
  | bool (b : Bool)
  | str (s : String)
  | char (c : Char)
deriving DecidableEq

/-- Kind tag of a type-erased operand: two operands can be compared by
`compare_any_values` only when both downcast to the same concrete type,
i.e. when their kinds agree. -/
inductive ValKind where
  | ki8 | ki16 | ki32 | ki64 | ki128 | kisize
  | ku8 | ku16 | ku32 | ku64 | ku128 | kusize
  | kf32 | kf64 | kbool | kstr | kchar
deriving DecidableEq

/-- Kind of an `AnyVal`. -/
def AnyVal.kind : AnyVal → ValKind
  | .i8 _ => .ki8
  | .i16 _ => .ki16
  | .i32 _ => .ki32
  | .i64 _ => .ki64
  | .i128 _ => .ki128
  | .isize _ => .kisize
  | .u8 _ => .ku8
  | .u16 _ => .ku16
  | .u32 _ => .ku32
  | .u64 _ => .ku64
  | .u128 _ => .ku128
  | .usize _ => .kusize
  | .f32 _ => .kf32
  | .f64 _ => .kf64
  | .bool _ => .kbool
  | .str _ => .kstr
  | .char _ => .kchar

/-- Body of the source's generic `try_compare::<T>` once both downcasts
have succeeded: the six relational operators, `None` for every other
operator (the dispatcher then falls through and, since no later kind can
match the same operands, ends at the fail-closed default). -/
def tryRel {α : Type} [DecidableEq α] [LT α] [LE α]
    [DecidableRel fun (x y : α) => x < y] [DecidableRel fun (x y : α) => x ≤ y]
    (a e : α) (op : ConditionOperator) : Option Bool :=
  match op with
  | .Equals => some (decide (a = e))
  | .NotEquals => some (decide (a ≠ e))
  | .GreaterThan => some (decide (e < a))
  | .LessThan => some (decide (a < e))
  | .GreaterThanOrEqual => some (decide (e ≤ a))
  | .LessThanOrEqual => some (decide (a ≤ e))
  | _ => none

/-- Rust `bool` relational semantics (`false < true`), used by
`try_compare::<bool>`. -/
def tryRelBool (a e : Bool) (op : ConditionOperator) : Option Bool :=
  match op with
  | .Equals => some (a == e)
  | .NotEquals => some (a != e)
  | .GreaterThan => some (a && !e)
  | .LessThan => some (!a && e)
  | .GreaterThanOrEqual => some (a || !e)
  | .LessThanOrEqual => some (!a || e)
  | _ => none

/-- Result triple for a successful `try_compare::<T>`: the boolean plus
`to_string` displays of both operands. -/
def relResult {α : Type} (toStr : α → String) (a e : α) :
    Option Bool → Option (Bool × Option String × Option String)
  | some passed => some (passed, some (toStr a), some (toStr e))
  | none => none

/-- Source `try_compare_strings`: string comparison with the extended
string operator set (regex feature disabled, so `Regex` is `false`). -/
def tryCompareStrings (a e : String) (op : ConditionOperator) :
    Option (Bool × Option String × Option String) :=
  let passed : Option Bool :=
    match op with
    | .Equals => some (decide (a = e))
    | .NotEquals => some (decide (a ≠ e))
    | .Contains => some (decide (e.toList <:+: a.toList))
    | .NotContains => some (!(decide (e.toList <:+: a.toList)))
    | .StartsWith => some (a.startsWith e)
    | .EndsWith => some (a.endsWith e)
    | .GreaterThan => some (decide (e < a))
    | .LessThan => some (decide (a < e))
    | .GreaterThanOrEqual => some (decide (e ≤ a))
    | .LessThanOrEqual => some (decide (a ≤ e))
    | .IsEmpty => some a.isEmpty
    | .IsNotEmpty => some (!a.isEmpty)
    | .Regex => some false
    | _ => none
  match passed with
  | some p => some (p, some a, some e)
  | none => none

/-- Source `compare_any_values`: the priority chain of `try_compare`
calls collapsed by kind.  A `try_compare::<T>` succeeds only when both
operands downcast to `T`; once both operands' kinds are fixed, at most
one stage of the chain can succeed, and a `None` from that stage (an
operator the kind does not support) falls through to the fail-closed
default `(false, None, None)`, exactly as in the source. -/
def compare_any_values (actual expected : AnyVal) (op : ConditionOperator) :
    Bool × Option String × Option String :=
  let res : Option (Bool × Option String × Option String) :=
    match actual, expected with
    | .i8 a, .i8 e => relResult toString a e (tryRel a e op)
    | .i16 a, .i16 e => relResult toString a e (tryRel a e op)
    | .i32 a, .i32 e => relResult toString a e (tryRel a e op)
    | .i64 a, .i64 e => relResult toString a e (tryRel a e op)
    | .i128 a, .i128 e => relResult toString a e (tryRel a e op)
    | .isize a, .isize e => relResult toString a e (tryRel a e op)
    | .u8 a, .u8 e => relResult toString a e (tryRel a e op)
    | .u16 a, .u16 e => relResult toString a e (tryRel a e op)
    | .u32 a, .u32 e => relResult toString a e (tryRel a e op)
    | .u64 a, .u64 e => relResult toString a e (tryRel a e op)
    | .u128 a, .u128 e => relResult toString a e (tryRel a e op)
    | .usize a, .usize e => relResult toString a e (tryRel a e op)
    | .f32 a, .f32 e => relResult toString a e (tryRel a e op)
    | .f64 a, .f64 e => relResult toString a e (tryRel a e op)
    | .bool a, .bool e => relResult toString a e (tryRelBool a e op)
    | .str a, .str e => tryCompareStrings a e op
    | .char a, .char e => relResult toString a e (tryRel a e op)
    | _, _ => none
  res.getD (false, none, none)

/-- Errors that can occur during condition matching (src/error.rs); the
`RegexError` variant is behind the disabled `regex` feature and hence
absent from the model. -/
inductive MatchError where
  | FieldNotFound (field : String) (type_name : String)
  | TypeMismatch (field : String) (expected : String) (actual : String)
  | UnsupportedOperator (operator : String) (context : String)
  | LengthNotSupported (type_name : String)
  | EmptyFieldPath
  | NestedFieldNotFound (path : List String) (failed_at : String)
deriving DecidableEq

/-- Result of evaluating a single condition (src/result.rs). -/
structure ConditionResult where
  passed : Bool
  description : String
  actual_value : Option String
  expected_value : Option String
  error : Option MatchError
deriving DecidableEq

/-- Extensional model of a `Matchable` record: its observable behaviour
under the protocol (src/matchable.rs) — a field table (`get_field`), a
field-path table (`get_field_path` as overridden by composite types), an
optional length and a type name.  Rust `PartialEq` on the record type is
modelled as structural equality. -/
structure Record where
  fields : List (String × AnyVal)
  paths : List (List String × AnyVal)
  len : Option Nat
  tyName : String
deriving DecidableEq

/-- `get_field`: total lookup, absence is `none`, never a fault. -/
def Record.getField (r : Record) (f : String) : Option AnyVal :=
  r.fields.lookup f

/-- `get_field_path` as implemented by a composite type's override. -/
def Record.getFieldPath (r : Record) (p : List String) : Option AnyVal :=
  r.paths.lookup p

/-- Trait-default `get_field_path` body from src/matchable.rs: it
ignores its path argument and returns `None` (its own doc comment says
it "walks through get_field calls", which it does not). -/
def defaultGetFieldPath (_r : Record) (_path : List String) : Option AnyVal :=
  none

/-- Rust `{:?}` (Debug) rendering of a `&[&str]` path, as used in the
path evaluator's description (escaping of special characters inside the
segments is not modelled; no theorem evaluates it on such segments). -/
def pathDebug (p : List String) : String :=
  "[" ++ String.intercalate ", " (p.map fun s => "\"" ++ s ++ "\"") ++ "]"

/-- Source `FieldEvaluator::evaluate` (src/evaluators/field.rs). -/
def fieldEvaluate (v : Record) (field : String) (expected : AnyVal)
    (op : ConditionOperator) : ConditionResult :=
  match v.getField field with
  | some actual =>
      let r := compare_any_values actual expected op
      { passed := r.1
        description := "field '" ++ field ++ "' " ++ opDebug op
        actual_value := r.2.1
        expected_value := r.2.2
        error := none }
  | none =>
      { passed := false
        description := "field '" ++ field ++ "' " ++ opDebug op
        actual_value := none
        expected_value := none
        error := some (.FieldNotFound field v.tyName) }

/-- Source `PathEvaluator::evaluate` (src/evaluators/path.rs): empty
path fails with `EmptyFieldPath`; then `get_field_path` is preferred;
then a single-segment path falls back to `get_field`; otherwise the
result embeds `NestedFieldNotFound`. -/
def pathEvaluate (v : Record) (path : List String) (expected : AnyVal)
    (op : ConditionOperator) : ConditionResult :=
  match path with
  | [] =>
      { passed := false
        description := "field path"
        actual_value := none
        expected_value := none
        error := some .EmptyFieldPath }
  | p0 :: _ =>
      match v.getFieldPath path with
      | some actual =>
          let r := compare_any_values actual expected op
          { passed := r.1
            description := "field path '" ++ pathDebug path ++ "' " ++ opDebug op
            actual_value := r.2.1
            expected_value := r.2.2
            error := none }
      | none =>
          match v.getField p0, path.length == 1 with
          | some actual, true =>
              let r := compare_any_values actual expected op
              { passed := r.1
                description := "field path '" ++ pathDebug path ++ "' " ++ opDebug op
                actual_value := r.2.1
                expected_value := r.2.2
                error := none }
          | _, _ =>
              { passed := false
                description := "field path '" ++ pathDebug path ++ "' " ++ opDebug op
                actual_value := none
                expected_value := none
                error := some (.NestedFieldNotFound path p0) }

/-- Source `compare_numeric` (src/evaluators/comparison.rs),
instantiated at `usize` as the length evaluator uses it. -/
def compare_numeric (actual expected : Nat) (op : ConditionOperator) : Bool :=
  match op with
  | .Equals => decide (actual = expected)
  | .NotEquals => decide (actual ≠ expected)
  | .GreaterThan => decide (expected < actual)
  | .LessThan => decide (actual < expected)
  | .GreaterThanOrEqual => decide (expected ≤ actual)
  | .LessThanOrEqual => decide (actual ≤ expected)
  | _ => false

/-- Source `LengthEvaluator::evaluate` (src/evaluators/length.rs). -/
def lengthEvaluate (v : Record) (expected : Nat) (op : ConditionOperator) :
    ConditionResult :=
  match v.len with
  | some actual =>
      { passed := compare_numeric actual expected op
        description := "length " ++ opDebug op ++ " " ++ toString expected
        actual_value := some (toString actual)
        expected_value := some (toString expected)
        error := none }
  | none =>
      { passed := false
        description := "length " ++ opDebug op ++ " " ++ toString expected
        actual_value := none
        expected_value := some (toString expected)
        error := some (.LengthNotSupported v.tyName) }

/-- Source `TypeEvaluator::evaluate` (src/evaluators/type_check.rs). -/
def typeEvaluate (v : Record) (expectedType : String) (op : ConditionOperator) :
    ConditionResult :=
  let actualType := v.tyName
  let passed :=
    match op with
    | .Equals => decide (actualType = expectedType)
    | .NotEquals => decide (actualType ≠ expectedType)
    | .Contains => decide (expectedType.toList <:+: actualType.toList)
    | _ => false
  { passed := passed
    description := "type " ++ opDebug op ++ " " ++ expectedType
    actual_value := some actualType
    expected_value := some expectedType
    error := none }

/-- Source `ValueEvaluator::evaluate` (src/evaluators/value.rs): whole
record equality under the record type's native `PartialEq`. -/
def valueEvaluate (v : Record) (expected : Record) (op : ConditionOperator) :
    ConditionResult :=
  let passed :=
    match op with
    | .Equals => decide (v = expected)
    | .NotEquals => decide (v ≠ expected)
    | _ => false
  { passed := passed
    description := "value " ++ opDebug op
    actual_value := none
    expected_value := none
    error := none }

mutual
/-- A single condition to evaluate: operator plus selector
(src/condition.rs). -/
inductive Condition where
  | mk (operator : ConditionOperator) (selector : ConditionSelector)

/-- Selectors for targeting what to check; the source's `Type` variant
is spelled `TypeSel` because `Type` is reserved in Lean
(src/condition.rs). -/
inductive ConditionSelector where
  | Length (expected : Nat)
  | TypeSel (name : String)
  | Value (expected : Record)
  | FieldValue (field : String) (expected : AnyVal)
  | FieldPath (path : List String) (expected : AnyVal)
  | Not (inner : Condition)
  | Nested (group : NestedCondition)

/-- A group of conditions combined with a logic mode
(src/condition.rs). -/
inductive NestedCondition where
  | mk (mode : ConditionMode) (rules : List Condition)
      (nested : List NestedCondition)
end

/-- Mode of a group. -/
def NestedCondition.mode : NestedCondition → ConditionMode
  | .mk m _ _ => m

/-- Leaf rules of a group. -/
def NestedCondition.rules : NestedCondition → List Condition
  | .mk _ r _ => r

/-- Child groups of a group. -/
def NestedCondition.nested : NestedCondition → List NestedCondition
  | .mk _ _ n => n

/-- Fold of `evaluate_nested` over the collected results
(src/condition.rs lines 206-210): AND = all passed, OR = any passed,
XOR = exactly one passed. -/
def combinePassed (mode : ConditionMode) (results : List ConditionResult) : Bool :=
  match mode with
  | .AND => results.all fun r => r.passed
  | .OR => results.any fun r => r.passed
  | .XOR => (results.countP fun r => r.passed) == 1

mutual
/-- Source `Predicate::test_detailed` for `Condition`
(src/condition.rs lines 161-186). -/
def test_detailed (v : Record) : Condition → ConditionResult
  | .mk op sel =>
    match sel with
    | .Length expected => lengthEvaluate v expected op
    | .TypeSel name => typeEvaluate v name op
    | .Value expected => valueEvaluate v expected op
    | .FieldValue f e => fieldEvaluate v f e op
    | .FieldPath p e => pathEvaluate v p e op
    | .Not inner =>
        let r := test_detailed v inner
        { r with passed := !r.passed, description := "NOT(" ++ r.description ++ ")" }
    | .Nested g => evaluate_nested v g

/-- Results of the rule loop of `evaluate_nested` (src/condition.rs
lines 196-199), in declaration order. -/
def evalRules (v : Record) : List Condition → List ConditionResult
  | [] => []
  | c :: cs => test_detailed v c :: evalRules v cs

/-- Results of the nested-group loop of `evaluate_nested`
(src/condition.rs lines 201-204), in declaration order. -/
def evalNestedList (v : Record) : List NestedCondition → List ConditionResult
  | [] => []
  | g :: gs => evaluate_nested v g :: evalNestedList v gs

/-- Source `evaluate_nested` (src/condition.rs lines 190-224). -/
def evaluate_nested (v : Record) : NestedCondition → ConditionResult
  | .mk mode rules nested =>
      let results := evalRules v rules ++ evalNestedList v nested
      { passed := combinePassed mode results
        description := modeDebug mode ++ " group (" ++ toString rules.length
          ++ " rules, " ++ toString nested.length ++ " nested)"
        actual_value := none
        expected_value := none
        error := none }
end

/-- Source `Predicate::test` for `Condition`: the fast boolean path. -/
def test (v : Record) (c : Condition) : Bool :=
  (test_detailed v c).passed

/-- Multiset of condition results a group folds over: one per leaf rule
followed by one aggregate per child group. -/
def groupResults (v : Record) (g : NestedCondition) : List ConditionResult :=
  evalRules v g.rules ++ evalNestedList v g.nested

/-- Result of a match operation with detailed information
(src/result.rs). -/
structure MatchResult where
  matched : Bool
  condition_results : List ConditionResult
  mode : ConditionMode
deriving DecidableEq

/-- Source `combine_results` (src/matchers/rule.rs lines 106-112; the
same function also appears in src/evaluators/json.rs lines 209-215). -/
def combine_results (results : List Bool) (mode : ConditionMode) : Bool :=
  match mode with
  | .AND => results.all fun r => r
  | .OR => results.any fun r => r
  | .XOR => (results.countP fun r => r) == 1

/-- Rule-built matcher: mode plus ordered conditions
(src/matchers/rule.rs). -/
structure RuleMatcher where
  mode : ConditionMode
  conditions : List Condition

/-- Source `Matcher::matches` for `RuleMatcher`: fold the fast boolean
tests under the mode. -/
def RuleMatcher.matches (m : RuleMatcher) (v : Record) : Bool :=
  combine_results (m.conditions.map fun c => test v c) m.mode

/-- Source `Evaluate::evaluate` for `RuleMatcher`: run the detailed path
per condition, then fold the passed flags under the mode. -/
def RuleMatcher.evaluate (m : RuleMatcher) (v : Record) : MatchResult :=
  let condition_results := m.conditions.map fun c => test_detailed v c
  { matched := combine_results (condition_results.map fun r => r.passed) m.mode
    condition_results := condition_results
    mode := m.mode }

/-- JSON scalar model (`serde_json::Value`).  Arrays and objects are
collapsed into the single `composite` constructor: no evaluator inspects
their structure, and `as_f64`/`as_str`/`as_bool` return `None` on
them. -/
inductive JsonValue where
  | null
  | bool (b : Bool)
  | num (q : Rat)
  | str (s : String)
  | composite
deriving DecidableEq

/-- `serde_json::Value::as_f64`: numbers only. -/
def JsonValue.asF64 : JsonValue → Option Rat
  | .num q => some q
  | _ => none

/-- `serde_json::Value::as_str`. -/
def JsonValue.asStr : JsonValue → Option String
  | .str s => some s
  | _ => none

/-- `serde_json::Value::as_bool`. -/
def JsonValue.asBool : JsonValue → Option Bool
  | .bool b => some b
  | _ => none

/-- A JSON-serializable condition for field comparisons
(src/condition.rs). -/
structure JsonCondition where
  field : String
  operator : ConditionOperator
  value : JsonValue
deriving DecidableEq

/-- A JSON-serializable group of conditions with nested support
(src/condition.rs). -/
inductive JsonNestedCondition where
  | mk (mode : ConditionMode) (rules : List JsonCondition)
      (nested : List JsonNestedCondition)

/-- Result of evaluating a JSON condition (src/result.rs).  The `actual`
field is modelled as the comparator's display string rather than the
re-encoded `serde_json::Value` of the source (no claim inspects it). -/
structure JsonConditionResult where
  passed : Bool
  field : String
  operator : ConditionOperator
  expected : JsonValue
  actual : Option String
  error : Option String
deriving DecidableEq

/-- Result of evaluating a JSON nested condition group
(src/result.rs). -/
structure JsonEvalResult where
  matched : Bool
  details : List JsonConditionResult
deriving DecidableEq

/-- Source `extract_as_f64` (src/evaluators/json.rs lines 95-133): the
numeric kinds it downcasts, in source order; every other kind — note in
particular `i128` and `u128` — falls through to `None`.  The `as f64`
casts are modelled as exact rational embeddings. -/
def extract_as_f64 : AnyVal → Option Rat
  | .f64 q => some q
  | .f32 q => some q
  | .i64 i => some (i : Rat)
  | .i32 i => some (i : Rat)
  | .i16 i => some (i : Rat)
  | .i8 i => some (i : Rat)
  | .u64 n => some (n : Rat)
  | .u32 n => some (n : Rat)
  | .u16 n => some (n : Rat)
  | .u8 n => some (n : Rat)
  | .isize i => some (i : Rat)
  | .usize n => some (n : Rat)
  | _ => none

/-- Rust `f64::EPSILON` as an exact rational: 2^-52. -/
def f64Epsilon : Rat := 1 / 4503599627370496

/-- Boolean table of the numeric branch of `compare_json_to_any`:
`Equals` is `|a-b| < EPSILON`, `NotEquals` its complement, the four
ordering operators use the native order, everything else is `false`. -/
def jsonNumPasses (a e : Rat) (op : ConditionOperator) : Bool :=
  match op with
  | .Equals => decide (|a - e| < f64Epsilon)
  | .NotEquals => decide (f64Epsilon ≤ |a - e|)
  | .GreaterThan => decide (e < a)
  | .LessThan => decide (a < e)
  | .GreaterThanOrEqual => decide (e ≤ a)
  | .LessThanOrEqual => decide (a ≤ e)
  | _ => false

/-- Boolean table of the string branch of `compare_json_to_any` (regex
feature disabled, so `Regex` is `false`; unsupported operators are
`false`, not a fall-through). -/
def jsonStrPasses (a e : String) (op : ConditionOperator) : Bool :=
  match op with
  | .Equals => decide (a = e)
  | .NotEquals => decide (a ≠ e)
  | .Contains => decide (e.toList <:+: a.toList)
  | .NotContains => !(decide (e.toList <:+: a.toList))
  | .StartsWith => a.startsWith e
  | .EndsWith => a.endsWith e
  | .GreaterThan => decide (e < a)
  | .LessThan => decide (a < e)
  | .GreaterThanOrEqual => decide (e ≤ a)
  | .LessThanOrEqual => decide (a ≤ e)
  | .IsEmpty => a.isEmpty
  | .IsNotEmpty => !a.isEmpty
  | .Regex => false
  | _ => false

/-- String downcast of the `actual` operand in the string branch: a
Rust `String` or `&str`, merged in the model. -/
def AnyVal.asStrRef : AnyVal → Option String
  | .str s => some s
  | _ => none

/-- Bool and fallback branches of `compare_json_to_any`. -/
def jsonBoolFallback (actual : AnyVal) (expected : JsonValue)
    (op : ConditionOperator) : Bool × Option String × Option String :=
  match expected.asBool with
  | some eb =>
      match actual with
      | .bool ab =>
          let passed :=
            match op with
            | .Equals => ab == eb
            | .NotEquals => ab != eb
            | _ => false
          (passed, some (toString ab), some (toString eb))
      | _ => (false, none, none)
  | none => (false, none, none)

/-- String branch of `compare_json_to_any`, falling through to the bool
branch when either side is not a string. -/
def jsonStrFallback (actual : AnyVal) (expected : JsonValue)
    (op : ConditionOperator) : Bool × Option String × Option String :=
  match expected.asStr with
  | some es =>
      match actual.asStrRef with
      | some as_ => (jsonStrPasses as_ es op, some as_, some es)
      | none => jsonBoolFallback actual expected op
  | none => jsonBoolFallback actual expected op

/-- Source `compare_json_to_any` (src/evaluators/json.rs lines
136-207): numeric branch (widen both sides to f64) first, then string,
then bool, then the fail-closed default.  Numeric display strings are
rendered via `Rat` and do not reproduce Rust float formatting (no
theorem relies on them). -/
def compare_json_to_any (actual : AnyVal) (expected : JsonValue)
    (op : ConditionOperator) : Bool × Option String × Option String :=
  match expected.asF64 with
  | some expF =>
      match extract_as_f64 actual with
      | some actF => (jsonNumPasses actF expF op, some (toString actF), some (toString expF))
      | none => jsonStrFallback actual expected op
  | none => jsonStrFallback actual expected op

/-- Splitting a character list on '.', with Rust `str::split('.')`
semantics: the empty input gives one empty segment, and separators at
the ends give empty segments. -/
def splitDotsAux : List Char → List (List Char)
  | [] => [[]]
  | c :: cs =>
      if c = '.' then [] :: splitDotsAux cs
      else
        match splitDotsAux cs with
        | [] => [[c]]
        | g :: gs => (c :: g) :: gs

/-- Rust `field.split('.').collect()`, modelled at the character level
(`String.splitOn` of the library is extensionally the same but does not
reduce in the kernel). -/
def splitDots (s : String) : List String :=
  (splitDotsAux s.toList).map fun cs => String.mk cs

/-- Source `JsonEvaluator::evaluate_rule` (src/evaluators/json.rs lines
51-91): split the dotted field on '.', resolve via `get_field` for a
single segment or `get_field_path` otherwise, then compare. -/
def evaluate_rule (rule : JsonCondition) (v : Record) : JsonConditionResult :=
  let segs := splitDots rule.field
  let actual? := if segs.length == 1 then v.getField rule.field
                 else v.getFieldPath segs
  match actual? with
  | some actual =>
      let r := compare_json_to_any actual rule.value rule.operator
      { passed := r.1
        field := rule.field
        operator := rule.operator
        expected := rule.value
        actual := r.2.1
        error := none }
  | none =>
      { passed := false
        field := rule.field
        operator := rule.operator
        expected := rule.value
        actual := none
        error := some ("Field '" ++ rule.field ++ "' not found") }

mutual
/-- Source `JsonEvaluator::evaluate_recursive` (src/evaluators/json.rs
lines 24-49), with the `&mut details` vector made an explicit
accumulator: rule results are appended in order, nested groups recurse,
and the flags fold under the group's mode. -/
def jsonEvalGroup (v : Record) :
    JsonNestedCondition → List JsonConditionResult →
      Bool × List JsonConditionResult
  | .mk mode rules nested, details =>
      let ruleResults := rules.map fun r => evaluate_rule r v
      let res := jsonEvalNested v nested (details ++ ruleResults)
      (combine_results ((ruleResults.map fun r => r.passed) ++ res.1) mode, res.2)

/-- Nested-group loop of `evaluate_recursive`: each child group's
aggregate flag in order, threading the details accumulator. -/
def jsonEvalNested (v : Record) :
    List JsonNestedCondition → List JsonConditionResult →
      List Bool × List JsonConditionResult
  | [], details => ([], details)
  | g :: gs, details =>
      let r1 := jsonEvalGroup v g details
      let r2 := jsonEvalNested v gs r1.2
      (r1.1 :: r2.1, r2.2)
end

/-- Source `JsonEvaluator::evaluate`: run the recursion with an empty
details vector. -/
def jsonEvaluate (g : JsonNestedCondition) (v : Record) : JsonEvalResult :=
  let r := jsonEvalGroup v g []
  { matched := r.1, details := r.2 }

/-- JSON-built matcher: owns one root group (src/matchers/json.rs). -/
structure JsonMatcher where
  cond : JsonNestedCondition

/-- Source `Matcher::matches` for `JsonMatcher`. -/
def JsonMatcher.matches (m : JsonMatcher) (v : Record) : Bool :=
  (jsonEvaluate m.cond v).matched

/-- Source `Evaluate::evaluate` for `JsonMatcher`. -/
def JsonMatcher.evaluate (m : JsonMatcher) (v : Record) : JsonEvalResult :=
  jsonEvaluate m.cond v

/-- Source sequential `evaluate_matrix` (src/batch.rs lines 101-115):
nested loops over enumerated values and matchers, pushing each matching
`(value_idx, matcher_idx)` pair in order.  Generic over the matcher type
through its `matches` method, as the Rust function is generic over
`M: Matcher<T>`. -/
def evaluate_matrix {T M : Type} (matchesFn : M → T → Bool)
    (values : List T) (matchers : List M) : List (Nat × Nat) :=
  (values.enum.map fun p =>
    matchers.enum.filterMap fun q =>
      if matchesFn q.2 p.2 then some (p.1, q.1) else none).flatten

/-- Parallel `evaluate_matrix` (src/batch.rs lines 187-204): each
enumerated record is a task evaluated against all matchers into a
private buffer; the buffers are merged afterwards.  Concurrency is
modelled by the `sched` parameter, an arbitrary reordering of the
enumerated record list in which the per-record partitions get merged. -/
def evaluate_matrix_parallel {T M : Type} (matchesFn : M → T → Bool)
    (sched : List (Nat × T)) (matchers : List M) : List (Nat × Nat) :=
  (sched.map fun p =>
    matchers.enum.filterMap fun q =>
      if matchesFn q.2 p.2 then some (p.1, q.1) else none).flatten

end CondMatcher

namespace CondMatcher

/-- CLAIM C2.  When the two type-erased operands do not both resolve to
the same concrete scalar kind of the closed set, `compare_any_values`
returns the fail-closed default `(false, None, None)`; in particular an
`i32` actual against an `i64` expected yields `passed = false` for every
operator, including `NotEquals` — widths are never unified. -/
theorem compare_any_values_kind_mismatch (a e : AnyVal) (op : ConditionOperator)
    (h : a.kind ≠ e.kind) :
    compare_any_values a e op = (false, none, none) ∧
      ∀ op' : ConditionOperator, (compare_any_values (.i32 5) (.i64 5) op').1 = false := by
  constructor
  · cases a <;> cases e <;> first
      | rfl
      | exact absurd rfl h
  · intro op'; rfl

/-- Witness for `compare_any_values_kind_mismatch` at the spec's own
example: an `i32` actual against an `i64` expected under `NotEquals`. -/
theorem compare_any_values_kind_mismatch_witness :
    compare_any_values (.i32 7) (.i64 7) .NotEquals = (false, none, none) :=
  (compare_any_values_kind_mismatch (.i32 7) (.i64 7) .NotEquals (by decide)).1

end CondMatcher

namespace CondMatcher

/-- Helper: the rule loop distributes over list append. -/
theorem evalRules_append (v : Record) (l1 l2 : List Condition) :
    evalRules v (l1 ++ l2) = evalRules v l1 ++ evalRules v l2 := by
  induction l1 with
  | nil => rfl
  | cons c cs ih => simp [evalRules, ih]

/-- Helper: the group fold only depends on the multiset of results. -/
theorem combinePassed_perm (mode : ConditionMode) {l1 l2 : List ConditionResult}
    (h : l1.Perm l2) : combinePassed mode l1 = combinePassed mode l2 := by
  cases mode with
  | AND =>
      simp only [combinePassed]
      rw [Bool.eq_iff_iff]
      simp only [List.all_eq_true]
      exact ⟨fun hh x hx => hh x (h.mem_iff.mpr hx),
             fun hh x hx => hh x (h.mem_iff.mp hx)⟩
  | OR =>
      simp only [combinePassed]
      rw [Bool.eq_iff_iff]
      simp only [List.any_eq_true]
      exact ⟨fun ⟨x, hx, hp⟩ => ⟨x, h.mem_iff.mp hx, hp⟩,
             fun ⟨x, hx, hp⟩ => ⟨x, h.mem_iff.mpr hx, hp⟩⟩
  | XOR =>
      simp only [combinePassed]
      rw [h.countP_eq]

/-- CLAIM C1.  For every group of condition results (from rules and
nested child groups) and every record, the group's aggregate boolean is:
under AND, true iff every collected result passed; under OR, true iff at
least one passed; under XOR, true iff exactly one passed; and on an
empty result list AND yields true while OR and XOR yield false. -/
theorem group_fold_spec (v : Record) (rules : List Condition)
    (nested : List NestedCondition) :
    ((evaluate_nested v (.mk .AND rules nested)).passed = true ↔
        ∀ r ∈ groupResults v (.mk .AND rules nested), r.passed = true) ∧
    ((evaluate_nested v (.mk .OR rules nested)).passed = true ↔
        ∃ r ∈ groupResults v (.mk .OR rules nested), r.passed = true) ∧
    ((evaluate_nested v (.mk .XOR rules nested)).passed = true ↔
        ((groupResults v (.mk .XOR rules nested)).countP fun r => r.passed) = 1) ∧
    (evaluate_nested v (.mk .AND [] [])).passed = true ∧
    (evaluate_nested v (.mk .OR [] [])).passed = false ∧
    (evaluate_nested v (.mk .XOR [] [])).passed = false := by
  refine ⟨?_, ?_, ?_, rfl, rfl, rfl⟩
  · simp [evaluate_nested, combinePassed, groupResults, NestedCondition.rules,
      NestedCondition.nested, List.all_eq_true]
    exact ⟨fun ⟨h1, h2⟩ r hr => hr.elim (h1 r) (h2 r),
           fun h => ⟨fun r hr => h r (Or.inl hr), fun r hr => h r (Or.inr hr)⟩⟩
  · simp [evaluate_nested, combinePassed, groupResults, NestedCondition.rules,
      NestedCondition.nested, List.any_eq_true]
    exact ⟨fun h => h.elim (fun ⟨x, hx, hp⟩ => ⟨x, Or.inl hx, hp⟩)
             (fun ⟨x, hx, hp⟩ => ⟨x, Or.inr hx, hp⟩),
           fun ⟨x, hx, hp⟩ => hx.elim (fun hh => Or.inl ⟨x, hh, hp⟩)
             (fun hh => Or.inr ⟨x, hh, hp⟩)⟩
  · simp [evaluate_nested, combinePassed, groupResults, NestedCondition.rules,
      NestedCondition.nested, Nat.beq_eq]

end CondMatcher

namespace CondMatcher

/-- CLAIM C3.  Evaluating a single condition never raises: in the model
every evaluator is a total function, and each failure mode is embedded
in the returned `ConditionResult` as `passed = false` with the
corresponding typed error — `FieldNotFound {field, type}` for an unknown
field, `EmptyFieldPath` for an empty path, `NestedFieldNotFound {path,
failed_at = path[0]}` for an unresolvable path, `LengthNotSupported` for
an unsupported length — and such a result participates in the AND/OR/XOR
fold exactly like an ordinary `false`. -/
theorem condition_error_embedding (v : Record) (f : String) (p0 : String)
    (ptail : List String) (exp : AnyVal) (op : ConditionOperator) (n : Nat)
    (h1 : v.getField f = none)
    (h2 : v.getFieldPath (p0 :: ptail) = none)
    (h3 : v.getField p0 = none)
    (h4 : v.len = none) :
    (fieldEvaluate v f exp op =
      { passed := false
        description := "field '" ++ f ++ "' " ++ opDebug op
        actual_value := none
        expected_value := none
        error := some (.FieldNotFound f v.tyName) }) ∧
    (pathEvaluate v [] exp op =
      { passed := false
        description := "field path"
        actual_value := none
        expected_value := none
        error := some .EmptyFieldPath }) ∧
    ((pathEvaluate v (p0 :: ptail) exp op).passed = false ∧
      (pathEvaluate v (p0 :: ptail) exp op).error =
        some (.NestedFieldNotFound (p0 :: ptail) p0)) ∧
    ((lengthEvaluate v n op).passed = false ∧
      (lengthEvaluate v n op).error = some (.LengthNotSupported v.tyName)) ∧
    (∀ (mode : ConditionMode) (l1 l2 : List ConditionResult),
      combinePassed mode (l1 ++ fieldEvaluate v f exp op :: l2) =
        combinePassed mode (l1 ++ ⟨false, "", none, none, none⟩ :: l2)) := by
  refine ⟨?_, rfl, ?_, ?_, ?_⟩
  · simp [fieldEvaluate, h1]
  · simp [pathEvaluate, h2, h3]
  · simp [lengthEvaluate, h4]
  · intro mode l1 l2
    cases mode <;>
      simp [combinePassed, fieldEvaluate, h1, List.all_append, List.any_append,
        List.countP_append, List.countP_cons]

/-- Witness for `condition_error_embedding` on a record with no fields,
no paths and no length. -/
theorem condition_error_embedding_witness :
    fieldEvaluate ⟨[], [], none, "Foo"⟩ "x" (.i32 1) .Equals =
      { passed := false
        description := "field 'x' Equals"
        actual_value := none
        expected_value := none
        error := some (.FieldNotFound "x" "Foo") } :=
  (condition_error_embedding ⟨[], [], none, "Foo"⟩ "x" "a" ["b"] (.i32 1)
    .Equals 3 rfl rfl rfl rfl).1

/-- CLAIM C5.  Evaluating `Not(c)` yields the result of `c` with its
boolean inverted and its description wrapped as "NOT(...)"; the error
field (and both display values) are exactly those of `c` — an embedded
error is preserved, not masked. -/
theorem not_inverts_and_preserves_error (op : ConditionOperator)
    (c : Condition) (v : Record) :
    test_detailed v (.mk op (.Not c)) =
      { test_detailed v c with
          passed := !(test_detailed v c).passed
          description := "NOT(" ++ (test_detailed v c).description ++ ")" } := by
  simp [test_detailed]

/-- Counterexample for CLAIM C6 as stated: the doubly negated condition
does not yield the very same `ConditionResult`, because the description
has been wrapped twice ("NOT(NOT(...))"). -/
theorem double_not_result_differs :
    test_detailed ⟨[], [], some 0, "T"⟩
        (.mk .Equals (.Not (.mk .Equals (.Not (.mk .Equals (.Length 0)))))) ≠
      test_detailed ⟨[], [], some 0, "T"⟩ (.mk .Equals (.Length 0)) := by
  decide

/-- CLAIM C6, amended.  `Not(Not(c))` restores every field of `c`'s
result — `passed` (so the two are boolean-equivalent), both display
values and the error — except the description, which is the inner
description wrapped twice as "NOT(NOT(...))". -/
theorem double_not_restores_result (op1 op2 : ConditionOperator)
    (c : Condition) (v : Record) :
    test_detailed v (.mk op1 (.Not (.mk op2 (.Not c)))) =
      { test_detailed v c with
          description :=
            "NOT(" ++ ("NOT(" ++ (test_detailed v c).description ++ ")") ++ ")" } := by
  simp [test_detailed]

/-- CLAIM C7: the claim is right and the code is wrong.  The trait
default `get_field_path` is documented ("Default implementation walks
through get_field calls") and specified to delegate a length-1 path to
`get_field`, but its body ignores the path and returns `None`: on a
record whose `get_field("f")` is `Some`, `get_field_path(["f"])` from
the default still returns `None`.  (`PathEvaluator` papers over this
with its own single-segment fallback.) -/
theorem default_get_field_path_contradicts_doc :
    defaultGetFieldPath ⟨[("f", .i32 1)], [], none, "M"⟩ ["f"] = none ∧
      Record.getField ⟨[("f", .i32 1)], [], none, "M"⟩ "f" = some (.i32 1) := by
  constructor
  · rfl
  · decide

end CondMatcher

namespace CondMatcher

/-- CLAIM C8.  A `Nested(n)` selector sitting at leaf-rule position in a
group contributes exactly the aggregate of `n` to the group's result
multiset, so the group's aggregate boolean equals that of the same group
with `n` inlined among its nested child groups, for all three modes. -/
theorem nested_rule_equals_inlined_group (v : Record) (mode : ConditionMode)
    (r1 r2 : List Condition) (ns : List NestedCondition)
    (op : ConditionOperator) (n : NestedCondition) :
    (evaluate_nested v (.mk mode (r1 ++ .mk op (.Nested n) :: r2) ns)).passed =
      (evaluate_nested v (.mk mode (r1 ++ r2) (n :: ns))).passed := by
  have hL : evalRules v (r1 ++ .mk op (.Nested n) :: r2) =
      evalRules v r1 ++ evaluate_nested v n :: evalRules v r2 := by
    rw [evalRules_append]; rfl
  have hR : evalRules v (r1 ++ r2) = evalRules v r1 ++ evalRules v r2 :=
    evalRules_append v r1 r2
  simp only [evaluate_nested, hL, hR, evalNestedList]
  apply combinePassed_perm
  simp only [List.append_assoc, List.cons_append]
  exact List.Perm.append_left _ List.perm_middle.symm

end CondMatcher

namespace CondMatcher

/-- Counterexample for CLAIM C4 as stated: not every integer kind is
widened to f64 by the JSON comparator.  `extract_as_f64` has no arm for
`i128` (nor `u128`), so an `i128` field equal to 5 falls through every
branch of `compare_json_to_any` and the JSON rule
`{"operator": "equals", "value": 5}` fails on it. -/
theorem json_widening_misses_i128 :
    extract_as_f64 (.i128 5) = none ∧
      compare_json_to_any (.i128 5) (.num 5) .Equals = (false, none, none) ∧
      (evaluate_rule ⟨"x", .Equals, .num 5⟩ ⟨[("x", .i128 5)], [], none, "T"⟩).passed
        = false := by
  refine ⟨rfl, rfl, ?_⟩
  decide

/-- CLAIM C4, amended.  For JSON-origin rules, a numeric field value of
the kinds `i8`-`i64`, `isize`, `u8`-`u64`, `usize`, `f32` or `f64` is
first widened to a 64-bit float (`i128`/`u128` are not widened and fail
closed); `Equals` then passes iff `|actual - expected| < EPSILON`, the
ordering operators use native float ordering, and consequently an `i32`
field equal to the JSON number always matches an `equals` rule. -/
theorem json_widening_supported_kinds (a : AnyVal) (x q : Rat)
    (h : extract_as_f64 a = some x) :
    (∀ k : Int, (compare_json_to_any (.i32 k) (.num (k : Rat)) .Equals).1 = true) ∧
    (∀ i : Int, extract_as_f64 (.i8 i) = some (i : Rat)) ∧
    (∀ i : Int, extract_as_f64 (.i16 i) = some (i : Rat)) ∧
    (∀ i : Int, extract_as_f64 (.i32 i) = some (i : Rat)) ∧
    (∀ i : Int, extract_as_f64 (.i64 i) = some (i : Rat)) ∧
    (∀ i : Int, extract_as_f64 (.isize i) = some (i : Rat)) ∧
    (∀ m : Nat, extract_as_f64 (.u8 m) = some (m : Rat)) ∧
    (∀ m : Nat, extract_as_f64 (.u16 m) = some (m : Rat)) ∧
    (∀ m : Nat, extract_as_f64 (.u32 m) = some (m : Rat)) ∧
    (∀ m : Nat, extract_as_f64 (.u64 m) = some (m : Rat)) ∧
    (∀ m : Nat, extract_as_f64 (.usize m) = some (m : Rat)) ∧
    (∀ y : Rat, extract_as_f64 (.f32 y) = some y) ∧
    (∀ y : Rat, extract_as_f64 (.f64 y) = some y) ∧
    ((compare_json_to_any a (.num q) .Equals).1 = true ↔ |x - q| < f64Epsilon) ∧
    ((compare_json_to_any a (.num q) .GreaterThan).1 = true ↔ q < x) ∧
    ((compare_json_to_any a (.num q) .LessThan).1 = true ↔ x < q) ∧
    ((compare_json_to_any a (.num q) .GreaterThanOrEqual).1 = true ↔ q ≤ x) ∧
    ((compare_json_to_any a (.num q) .LessThanOrEqual).1 = true ↔ x ≤ q) := by
  refine ⟨?_, fun i => rfl, fun i => rfl, fun i => rfl, fun i => rfl, fun i => rfl,
    fun m => rfl, fun m => rfl, fun m => rfl, fun m => rfl, fun m => rfl,
    fun y => rfl, fun y => rfl, ?_, ?_, ?_, ?_, ?_⟩
  · intro k
    simp [compare_json_to_any, JsonValue.asF64, extract_as_f64, jsonNumPasses,
      f64Epsilon]
  all_goals
    simp [compare_json_to_any, JsonValue.asF64, h, jsonNumPasses]

/-- Witness for `json_widening_supported_kinds`: an `i32` field equal to
7 matches the JSON rule `equals 7`. -/
theorem json_widening_supported_kinds_witness :
    (compare_json_to_any (.i32 7) (.num 7) .Equals).1 = true :=
  (json_widening_supported_kinds (.i32 5) 5 5 rfl).1 7

/-- CLAIM C9.  The parallel batch driver yields the same set of matching
`(record_idx, matcher_idx)` pairs as the sequential driver: whatever
order the per-record partitions get merged in, pair membership in the
two outputs coincides. -/
theorem parallel_matrix_same_pair_set {T M : Type} (matchesFn : M → T → Bool)
    (values : List T) (matchers : List M) (sched : List (Nat × T))
    (h : sched.Perm values.enum) :
    ∀ pr : Nat × Nat,
      pr ∈ evaluate_matrix_parallel matchesFn sched matchers ↔
        pr ∈ evaluate_matrix matchesFn values matchers := by
  intro pr
  simp only [evaluate_matrix, evaluate_matrix_parallel]
  exact List.Perm.mem_iff (List.Perm.flatten (h.map _))

/-- Witness for `parallel_matrix_same_pair_set`: two records processed
in reversed order against one always-true matcher. -/
theorem parallel_matrix_same_pair_set_witness :
    (0, 0) ∈ evaluate_matrix_parallel (fun (b : Bool) (_ : Nat) => b)
        [(1, 20), (0, 10)] [true] ↔
      (0, 0) ∈ evaluate_matrix (fun (b : Bool) (_ : Nat) => b) [10, 20] [true] :=
  parallel_matrix_same_pair_set (fun b _ => b) [10, 20] [true]
    [(1, 20), (0, 10)] (by decide) (0, 0)

/-- CLAIM C10.  The fast boolean path agrees with the detailed path:
`matches` equals `evaluate(..).matched` for both matcher wrappers, and
`test` equals `test_detailed(..).passed` for a single condition. -/
theorem fast_path_agrees_with_detailed (rm : RuleMatcher) (jm : JsonMatcher)
    (c : Condition) (v : Record) :
    rm.matches v = (rm.evaluate v).matched ∧
    jm.matches v = (jm.evaluate v).matched ∧
    test v c = (test_detailed v c).passed := by
  refine ⟨?_, rfl, rfl⟩
  simp [RuleMatcher.matches, RuleMatcher.evaluate, List.map_map, test,
    Function.comp_def]

end CondMatcher
